import Mathlib

/-!
Verification of the `wordef` word-definition lookup tool (Go, `wordef.go`)
against its design specification.

The Go source is shallowly embedded: the filesystem (one cache directory of
`<word>.json` files) is a list of `(filename, contents)` pairs plus injected
read/write failure sets, the HTTP layer is a function from request URL to a
transport outcome, and the external `encoding/json` unmarshaller is an
abstract parameter of the environment (with the one fixed fact that
unmarshalling a `nil` byte slice yields a syntax error).  All definitions are
translated from `wordef.go`; source line numbers are cited on each one.
-/

set_option autoImplicit false

namespace Wordef

/-- Error taxonomy of the program.  Each constructor corresponds to one error
construction site in `wordef.go`:
`notFound` = "Word not found in cache: %w" (line 81),
`ioRead` = "failed to read cache file: %w" (line 87),
`network` = the error returned by `http.Get` (line 99),
`readBody` = "Failed to read response body: %w" (line 107),
`parse` = the error returned by `json.Unmarshal` (line 121),
`alreadyExists` = "Word already saved to file" (line 63),
`ioWrite` = "Failed to write cache file to app directory: %w" (line 69). -/
inductive Err where
  | notFound
  | ioRead
  | network
  | readBody
  | parse (msg : String)
  | alreadyExists
  | ioWrite
deriving DecidableEq, Repr

/-- Opaque JSON value: `Synonyms`/`Antonyms` are `[]any` in the Go struct and
the spec directs to treat them as opaque, never-interpreted values. -/
structure AnyVal where
  raw : String
deriving DecidableEq, Repr

/-- One element of `Definitions` in the Go `WordInfo` struct (lines 30-35). -/
structure WordDefinition where
  Definition : String
  Example : String
  Synonyms : List AnyVal
  Antonyms : List AnyVal
deriving DecidableEq, Repr

/-- One element of `Meanings` in the Go `WordInfo` struct (lines 28-36). -/
structure Meaning where
  PartOfSpeech : String
  Definitions : List WordDefinition
deriving DecidableEq, Repr

/-- One element of `Phonetics` in the Go `WordInfo` struct (lines 23-26). -/
structure PhoneticVariant where
  Text : String
  Audio : String
deriving DecidableEq, Repr

/-- The Go `WordInfo` struct (wordef.go lines 20-37). -/
structure WordInfo where
  Word : String
  Phonetic : String
  Phonetics : List PhoneticVariant
  Origin : String
  Meanings : List Meaning
deriving DecidableEq, Repr

/-- State of the cache directory: `files` maps each file name (such as
`"Hello.json"`) to its contents, in creation order; `readErr` is the set of
file names on which `os.ReadFile` fails; `writeErr` the set on which
`os.WriteFile` fails.  `os.Stat` succeeds exactly on existing files. -/
structure FS where
  files : List (String × String)
  readErr : List String
  writeErr : List String
deriving DecidableEq, Repr

/-- Outcome of one `http.Get` + `io.ReadAll` round trip, keyed by URL:
a transport error from `http.Get`, a body-read error from `io.ReadAll`, or
a fully read body.  HTTP status codes are not interpreted (any read body is
returned as-is), matching `fetchFromApi`. -/
inductive NetResp where
  | transportErr
  | bodyReadErr
  | body (s : String)
deriving DecidableEq, Repr

/-- Environment of one program run: the cache directory state, the network,
and the behaviour of `json.Unmarshal` on actual (non-nil) byte payloads,
returning either the parsed `[]WordInfo` or an error message. -/
structure Env where
  fs : FS
  net : String → NetResp
  unmarshal : String → Except String (List WordInfo)

/-- Fixed API endpoint prefix (wordef.go line 94). -/
def apiBase : String := "https://api.dictionaryapi.dev/api/v2/entries/en/"

/-- Embeds `fetchFromCache` (wordef.go lines 75-91): stat the file
`<word>.json`; a stat error becomes `notFound`, a read error `ioRead`,
otherwise the raw bytes are returned. -/
def fetchFromCache (word : String) (fs : FS) : Except Err String :=
  let wordPath := word ++ ".json"
  match fs.files.lookup wordPath with
  | none => .error .notFound
  | some contents =>
      if wordPath ∈ fs.readErr then .error .ioRead else .ok contents

/-- Embeds `fetchFromApi` (wordef.go lines 93-111): issue `http.Get` on the
templated URL; a transport error propagates as `network`, a body-read error
as `readBody`, otherwise the body bytes are returned. -/
def fetchFromApi (word : String) (net : String → NetResp) : Except Err String :=
  match net (apiBase ++ word) with
  | .transportErr => .error .network
  | .bodyReadErr => .error .readBody
  | .body s => .ok s

/-- Embeds `saveToCache` (wordef.go lines 57-73): if `os.Stat` finds the file
the write is rejected with `alreadyExists` and nothing is touched; an
`os.WriteFile` failure is `ioWrite`; otherwise the file is created.  Returns
the Go error value together with the resulting directory state. -/
def saveToCache (word rawJson : String) (fs : FS) : Except Err Unit × FS :=
  let wordPath := word ++ ".json"
  if (fs.files.lookup wordPath).isSome then (.error .alreadyExists, fs)
  else if wordPath ∈ fs.writeErr then (.error .ioWrite, fs)
  else (.ok (), { fs with files := fs.files ++ [(wordPath, rawJson)] })

/-- Behaviour of `json.Unmarshal` as called at wordef.go line 121: the byte
slice may be `nil` (when `fetchFromApi` failed and returned `nil` bytes), on
which `encoding/json` deterministically reports the syntax error
"unexpected end of JSON input"; on actual bytes the abstract parser of the
environment decides. -/
def goUnmarshal (u : String → Except String (List WordInfo)) :
    Option String → Except String (List WordInfo)
  | none => .error "unexpected end of JSON input"
  | some s => u s

/-- Raw-bytes acquisition phase of `searchWord` (wordef.go lines 115-119):
try the cache; on ANY cache error fall through to the API, and — exactly as
in the source, where `err` is immediately overwritten by the
`json.Unmarshal` call on line 121 — DISCARD the API error, leaving `nil`
bytes.  The second component counts `http.Get` calls issued. -/
def acquireRaw (word : String) (env : Env) : Option String × Nat :=
  match fetchFromCache word env.fs with
  | .ok s => (some s, 0)
  | .error _ =>
      match fetchFromApi word env.net with
      | .ok s => (some s, 1)
      | .error _ => (none, 1)

/-- Result of one `searchWord` invocation: the Go return value, the cache
directory afterwards, and how many network fetches were issued. -/
structure SearchOut where
  result : Except Err (List WordInfo)
  fs : FS
  fetches : Nat

/-- Embeds `searchWord` (wordef.go lines 113-130): acquire raw bytes
(cache first, then API with the API error discarded), unmarshal them — a
parse error returns immediately, before any write — and on success call
`saveToCache`, whose error is ignored (line 127).  When the parse succeeds
the raw bytes are necessarily present, so the `getD` default is unreachable. -/
def searchWord (word : String) (env : Env) : SearchOut :=
  let raw := (acquireRaw word env).1
  let n := (acquireRaw word env).2
  match goUnmarshal env.unmarshal raw with
  | .error m => ⟨.error (.parse m), env.fs, n⟩
  | .ok parsed => ⟨.ok parsed, (saveToCache word (raw.getD "") env.fs).2, n⟩

/-- The character list of the storage suffix `".json"`. -/
def jsonPat : List Char := ['.', 'j', 's', 'o', 'n']

/-- Embeds `filepath.Ext` on a bare file name: the suffix beginning at the
final dot, empty when the name has no dot. -/
def goExt : List Char → List Char
  | [] => []
  | c :: rest =>
      match goExt rest with
      | [] => if c = '.' then c :: rest else []
      | e => e

/-- Embeds `strings.Replace(s, pat, "", 1)` for a non-empty `pat`: the first
occurrence of `pat`, scanning left to right, is removed; a string without an
occurrence is returned unchanged. -/
def removeFirst (pat : List Char) : List Char → List Char
  | [] => []
  | c :: rest =>
      if pat.isPrefixOf (c :: rest) then (c :: rest).drop pat.length
      else c :: removeFirst pat rest

/-- Substring occurrence test (used only in statements, to delimit the words
on which suffix-stripping by first-occurrence removal is exact). -/
def hasSubstr (pat : List Char) : List Char → Bool
  | [] => pat.isEmpty
  | c :: rest => pat.isPrefixOf (c :: rest) || hasSubstr pat rest

/-- Body of the `WalkDir` callback in `getCachedWords` (wordef.go lines
133-148) for one directory entry name: entries whose `filepath.Ext` is
`".json"` contribute `strings.Replace(name, ".json", "", 1)`, the rest are
skipped. -/
def cacheFileKey (name : String) : Option String :=
  if goExt name.data = jsonPat then some (String.mk (removeFirst jsonPat name.data))
  else none

/-- Lexicographic comparison on character lists, by code point. -/
def charListLe : List Char → List Char → Bool
  | [], _ => true
  | _ :: _, [] => false
  | a :: as, b :: bs =>
      if a.toNat = b.toNat then charListLe as bs else decide (a.toNat < b.toNat)

/-- Insertion step of the lexical sort. -/
def insortStr (x : String) : List String → List String
  | [] => [x]
  | y :: ys => if charListLe x.data y.data then x :: y :: ys else y :: insortStr x ys

/-- Lexical sort of file names: `filepath.WalkDir` visits directory entries
in lexical order. -/
def sortStr : List String → List String
  | [] => []
  | x :: xs => insortStr x (sortStr xs)

/-- Embeds `getCachedWords` (wordef.go lines 132-155): `filepath.WalkDir`
visits the cache directory itself first (base name `"wordef"`, wordef.go
line 46), then its entries in lexical order; each visited name with
extension `".json"` contributes the name with its first `".json"`
occurrence removed. -/
def getCachedWords (fs : FS) : List String :=
  ("wordef" :: sortStr (fs.files.map Prod.fst)).filterMap cacheFileKey

/-- Embeds `capitalizeString` (wordef.go lines 157-164): the empty string maps
to itself, otherwise the first rune is upper-cased (`unicode.ToUpper`
modelled by `Char.toUpper`). -/
def capitalizeString (s : String) : String :=
  match s.data with
  | [] => ""
  | c :: rest => String.mk (c.toUpper :: rest)

/-- Outcome of `handleSearchCommand` as observable by the caller:
a displayed entry, a propagated search error ("Failed to search for word"),
the empty-meanings report, or a Go runtime panic (index out of range). -/
inductive CmdOutcome where
  | display (info : WordInfo)
  | failed (e : Err)
  | noDefinitions
  | panicked
deriving DecidableEq, Repr

/-- Result of `handleSearchCommand`: outcome plus final directory state and
fetch count. -/
structure CmdOut where
  outcome : CmdOutcome
  fs : FS
  fetches : Nat

/-- Embeds `handleSearchCommand` (wordef.go lines 189-211): run `searchWord`;
on error report it; otherwise index `resp[0]` — which, on an empty parsed
slice, is an out-of-range access and panics — then report empty `Meanings`
or display the entry. -/
def handleSearchCommand (word : String) (env : Env) : CmdOut :=
  let r := searchWord word env
  match r.result with
  | .error e => ⟨.failed e, r.fs, r.fetches⟩
  | .ok resp =>
      match resp with
      | [] => ⟨.panicked, r.fs, r.fetches⟩
      | wordInfo :: _ =>
          if wordInfo.Meanings.isEmpty then ⟨.noDefinitions, r.fs, r.fetches⟩
          else ⟨.display wordInfo, r.fs, r.fetches⟩

/-- The search path of `main` (wordef.go lines 244-246): the single
normalization `capitalizeString` is applied once, at the resolver boundary,
before `handleSearchCommand`. -/
def mainSearch (arg : String) (env : Env) : CmdOut :=
  handleSearchCommand (capitalizeString arg) env

/-- Resolver-level view of the same boundary, for stating cache-key facts. -/
def mainSearchWord (arg : String) (env : Env) : SearchOut :=
  searchWord (capitalizeString arg) env

/-! Concrete data used to evaluate the embedding at specific inputs. -/

/-- A sample parsed dictionary entry with one noun meaning. -/
def demoInfo : WordInfo :=
  { Word := "demo", Phonetic := "/demo/", Phonetics := [], Origin := "",
    Meanings := [{ PartOfSpeech := "noun",
                   Definitions := [{ Definition := "a sample", Example := "",
                                     Synonyms := [], Antonyms := [] }] }] }

/-- An empty cache directory with no injected I/O failures. -/
def fs0 : FS := ⟨[], [], []⟩

/-- Environment where the word is uncached and `http.Get` itself fails with a
transport error; the abstract parser is never consulted on real bytes. -/
def envNetDown : Env :=
  { fs := fs0, net := fun _ => .transportErr, unmarshal := fun _ => .error "unreached" }

/-- Environment where a record for `"Hello"` exists but reading it fails,
while the network would answer with a parseable body. -/
def envCorruptRead : Env :=
  { fs := ⟨[("Hello.json", "CACHED")], ["Hello.json"], []⟩,
    net := fun _ => .body "NETBODY",
    unmarshal := fun s => if s = "NETBODY" then .ok [demoInfo] else .error "bad" }

/-- Environment where the record for `"W"` exists, reads fine, and holds
bytes that do not parse. -/
def envCorruptBytes : Env :=
  { fs := ⟨[("W.json", "X")], [], []⟩,
    net := fun _ => .body "NETBODY",
    unmarshal := fun _ => .error "bad" }

/-- Environment with an empty cache whose write to `"W.json"` fails, while
the network answers with a parseable body. -/
def envWriteFail : Env :=
  { fs := ⟨[], [], ["W.json"]⟩,
    net := fun _ => .body "B",
    unmarshal := fun s => if s = "B" then .ok [demoInfo] else .error "bad" }

/-- Environment with an empty, fully healthy cache and a parseable network
body. -/
def envRoundtrip : Env :=
  { fs := fs0,
    net := fun _ => .body "B",
    unmarshal := fun s => if s = "B" then .ok [demoInfo] else .error "bad" }

/-- Environment where the remote answers with a body that fails to parse. -/
def envBadBody : Env :=
  { fs := fs0,
    net := fun _ => .body "oops",
    unmarshal := fun _ => .error "invalid character o" }

/-- Environment where the remote answers `"[]"`, a well-formed JSON array
parsing to an empty `[]WordInfo`. -/
def envEmptyArr : Env :=
  { fs := fs0,
    net := fun _ => .body "[]",
    unmarshal := fun s => if s = "[]" then .ok [] else .error "bad" }

/-- Environment where a record for `"W"` exists but is unreadable, so the
body is re-fetched and the subsequent persistence attempt is rejected with
`alreadyExists`. -/
def envAlready : Env :=
  { fs := ⟨[("W.json", "X")], ["W.json"], []⟩,
    net := fun _ => .body "B",
    unmarshal := fun s => if s = "B" then .ok [demoInfo] else .error "bad" }

/-- Environment with an empty healthy cache, for the case-normalization
round trip. -/
def envCase : Env :=
  { fs := fs0,
    net := fun _ => .body "B",
    unmarshal := fun s => if s = "B" then .ok [demoInfo] else .error "bad" }

/-- Environment like `envCase` but whose write to `"Hello.json"` fails. -/
def envCaseWriteFail : Env :=
  { fs := ⟨[], [], ["Hello.json"]⟩,
    net := fun _ => .body "B",
    unmarshal := fun s => if s = "B" then .ok [demoInfo] else .error "bad" }

/-- Environment whose cache already holds a record for `"Hello"`, with
parseable bytes. -/
def envCached : Env :=
  { fs := ⟨[("Hello.json", "X")], [], []⟩,
    net := fun _ => .transportErr,
    unmarshal := fun _ => .ok [demoInfo] }

/-- Environment used to resolve the word `"A.jsonB"`, whose stored file name
defeats first-occurrence suffix stripping. -/
def envDotJson : Env :=
  { fs := fs0,
    net := fun _ => .body "B",
    unmarshal := fun s => if s = "B" then .ok [demoInfo] else .error "bad" }

/-- Cache directory holding exactly the records of `"Apple"` and `"Pear"`. -/
def fsTwo : FS := ⟨[("Apple.json", "B"), ("Pear.json", "B")], [], []⟩

/-! Helper lemmas about the embedded operations. -/

/-- The number of fetches of a resolution is fixed by the acquisition phase,
whatever the parse outcome. -/
theorem searchWord_fetches (word : String) (env : Env) :
    (searchWord word env).fetches = (acquireRaw word env).2 := by
  simp only [searchWord]
  split <;> rfl

/-- A missing record makes `fetchFromCache` report `notFound`. -/
theorem fetchFromCache_notFound (word : String) (fs : FS)
    (h : fs.files.lookup (word ++ ".json") = none) :
    fetchFromCache word fs = .error .notFound := by
  simp [fetchFromCache, h]

/-- A fresh record is found by a later lookup. -/
theorem lookup_append_fresh (files : List (String × String)) (k v : String)
    (h : files.lookup k = none) :
    (files ++ [(k, v)]).lookup k = some v := by
  rw [List.lookup_append, h]
  simp [List.lookup]

/-- Core cache round trip: when the word has no record, its first resolution
succeeds, the write is not I/O-impaired and the fresh record is readable,
then the first call fetched once and an immediate second call is a pure
cache hit (no fetch) returning the same parsed value. -/
theorem searchWord_miss_roundtrip (env : Env) (word : String) (l : List WordInfo)
    (hmiss : env.fs.files.lookup (word ++ ".json") = none)
    (hok : (searchWord word env).result = .ok l)
    (hw : (word ++ ".json") ∉ env.fs.writeErr)
    (hr : (word ++ ".json") ∉ env.fs.readErr) :
    (searchWord word env).fetches = 1 ∧
    (searchWord word { env with fs := (searchWord word env).fs }).fetches = 0 ∧
    (searchWord word { env with fs := (searchWord word env).fs }).result = .ok l := by
  have hfc : fetchFromCache word env.fs = .error .notFound :=
    fetchFromCache_notFound _ _ hmiss
  cases hnet : env.net (apiBase ++ word) with
  | transportErr =>
      have hres : (searchWord word env).result =
          .error (.parse "unexpected end of JSON input")
      · simp [searchWord, acquireRaw, hfc, fetchFromApi, hnet, goUnmarshal]
      rw [hres] at hok
      simp at hok
  | bodyReadErr =>
      have hres : (searchWord word env).result =
          .error (.parse "unexpected end of JSON input")
      · simp [searchWord, acquireRaw, hfc, fetchFromApi, hnet, goUnmarshal]
      rw [hres] at hok
      simp at hok
  | body s =>
      have ha : acquireRaw word env = (some s, 1)
      · simp [acquireRaw, hfc, fetchFromApi, hnet]
      cases hu : env.unmarshal s with
      | error m =>
          have hres : (searchWord word env).result = .error (.parse m)
          · simp [searchWord, ha, goUnmarshal, hu]
          rw [hres] at hok
          simp at hok
      | ok l' =>
          have hres : searchWord word env =
              ⟨.ok l',
               { env.fs with files := env.fs.files ++ [(word ++ ".json", s)] }, 1⟩
          · simp [searchWord, ha, goUnmarshal, hu, saveToCache, hmiss, hw]
          have hl : l' = l
          · rw [hres] at hok
            exact Except.ok.inj hok
          subst hl
          have hfc2 : fetchFromCache word
              { env.fs with files := env.fs.files ++ [(word ++ ".json", s)] } = .ok s
          · simp [fetchFromCache, lookup_append_fresh env.fs.files _ s hmiss, hr]
          have ha2 : acquireRaw word
              { env with fs :=
                { env.fs with files := env.fs.files ++ [(word ++ ".json", s)] } } =
              (some s, 0)
          · simp [acquireRaw, hfc2]
          refine ⟨?_, ?_, ?_⟩
          · rw [hres]
          · simp only [hres]
            simp [searchWord, ha2, goUnmarshal, hu]
          · simp only [hres]
            simp [searchWord, ha2, goUnmarshal, hu]

/-! Claim theorems. -/

/-- C1: the claim says `NetworkFailure` (and the other failures) propagate
verbatim through the resolver, in particular that a transport error on
`http.Get` is returned as the network error.  The code instead discards the
error of `fetchFromApi` and unmarshals the `nil` body, so the caller receives
a `ParseFailure` ("unexpected end of JSON input"), not the network error:
evaluated here at the failing input (uncached word `"Hello"`, transport
error on the fetch). -/
theorem C1_network_error_masked_as_parse :
    (searchWord "Hello" envNetDown).result =
      .error (.parse "unexpected end of JSON input") ∧
    (searchWord "Hello" envNetDown).result ≠ .error .network ∧
    (searchWord "Hello" envNetDown).fetches = 1 := by
  refine ⟨rfl, ?_, rfl⟩
  intro hcon
  have h2 : Err.parse "unexpected end of JSON input" = Err.network :=
    Except.error.inj hcon
  exact Err.noConfusion h2

/-- C2 counterexample: a record for `"Hello"` exists but reading it fails
(`ioRead`); the claim says this `IOFailure` propagates and no network request
is made, yet the code issues one fetch and answers from the network. -/
theorem C2_counterexample :
    fetchFromCache "Hello" envCorruptRead.fs = .error .ioRead ∧
    (searchWord "Hello" envCorruptRead).fetches = 1 ∧
    (searchWord "Hello" envCorruptRead).result = .ok [demoInfo] :=
  ⟨rfl, rfl, rfl⟩

/-- C2 (amended): the resolver falls through to the network on ANY cache
retrieval error (missing record or read failure) — witnessed by the
always-one-fetch second conjunct — while a record that is read successfully
but fails to parse propagates `ParseFailure` with no network request and no
state change. -/
theorem C2_cache_error_policy (envA envB : Env) (word s m : String) (e : Err)
    (h1 : fetchFromCache word envA.fs = .ok s)
    (h2 : envA.unmarshal s = .error m)
    (h3 : fetchFromCache word envB.fs = .error e) :
    ((searchWord word envA).result = .error (.parse m) ∧
     (searchWord word envA).fetches = 0 ∧
     (searchWord word envA).fs = envA.fs) ∧
    (searchWord word envB).fetches = 1 := by
  have ha : acquireRaw word envA = (some s, 0)
  · simp [acquireRaw, h1]
  refine ⟨⟨?_, ?_, ?_⟩, ?_⟩
  · simp [searchWord, ha, goUnmarshal, h2]
  · simp [searchWord, ha, goUnmarshal, h2]
  · simp [searchWord, ha, goUnmarshal, h2]
  · rw [searchWord_fetches]
    cases hapi : fetchFromApi word envB.net <;> simp [acquireRaw, h3, hapi]

/-- C2 witness: concrete corrupt-cache-entry environment (parse error
propagates, no fetch) and concrete missing-record environment (one fetch). -/
theorem C2_witness :
    ((searchWord "W" envCorruptBytes).result = .error (.parse "bad") ∧
     (searchWord "W" envCorruptBytes).fetches = 0 ∧
     (searchWord "W" envCorruptBytes).fs = envCorruptBytes.fs) ∧
    (searchWord "W" envNetDown).fetches = 1 :=
  C2_cache_error_policy envCorruptBytes envNetDown "W" "X" "bad" .notFound rfl rfl rfl

/-- C3 counterexample: the word `"W"` is uncached and its first resolution
succeeds, but persistence fails (injected write error, swallowed by the
code), so the immediately repeated call fetches again — two fetches in
total, refuting "at most one network fetch in total". -/
theorem C3_counterexample :
    (searchWord "W" envWriteFail).result = .ok [demoInfo] ∧
    (searchWord "W" envWriteFail).fetches = 1 ∧
    (searchWord "W"
      { envWriteFail with fs := (searchWord "W" envWriteFail).fs }).fetches = 1 :=
  ⟨rfl, rfl, rfl⟩

/-- C3 (amended): for a word with no cache record whose first resolution
succeeds, PROVIDED the cache write is not I/O-impaired and the fresh record
is readable, the two calls perform one fetch in total: the second call is a
pure cache hit returning the same parsed result. -/
theorem C3_cache_roundtrip (env : Env) (word : String) (l : List WordInfo)
    (hmiss : env.fs.files.lookup (word ++ ".json") = none)
    (hok : (searchWord word env).result = .ok l)
    (hw : (word ++ ".json") ∉ env.fs.writeErr)
    (hr : (word ++ ".json") ∉ env.fs.readErr) :
    (searchWord word env).fetches = 1 ∧
    (searchWord word { env with fs := (searchWord word env).fs }).fetches = 0 ∧
    (searchWord word { env with fs := (searchWord word env).fs }).result = .ok l :=
  searchWord_miss_roundtrip env word l hmiss hok hw hr

/-- C3 witness: resolving `"Serendipity"` twice against a healthy empty
cache: one fetch, then a fetch-free cache hit with the same result. -/
theorem C3_witness :
    (searchWord "Serendipity" envRoundtrip).fetches = 1 ∧
    (searchWord "Serendipity"
      { envRoundtrip with fs := (searchWord "Serendipity" envRoundtrip).fs }).fetches = 0 ∧
    (searchWord "Serendipity"
      { envRoundtrip with fs := (searchWord "Serendipity" envRoundtrip).fs }).result =
      .ok [demoInfo] :=
  C3_cache_roundtrip envRoundtrip "Serendipity" [demoInfo] rfl rfl
    (by decide) (by decide)

/-- C4: write-once discipline of `saveToCache`: after a successful write of
`b1` under `w`, a second write under `w` reports `alreadyExists` and leaves
the directory untouched; the stored record still holds `b1` and (when its
read is not I/O-impaired) reads back as `b1`. -/
theorem C4_write_once (fs fs1 : FS) (w b1 b2 : String)
    (h : saveToCache w b1 fs = (.ok (), fs1)) :
    saveToCache w b2 fs1 = (.error .alreadyExists, fs1) ∧
    fs1.files.lookup (w ++ ".json") = some b1 ∧
    ((w ++ ".json") ∉ fs1.readErr → fetchFromCache w fs1 = .ok b1) := by
  unfold saveToCache at h
  by_cases h1 : ((fs.files.lookup (w ++ ".json")).isSome : Prop)
  · rw [if_pos h1] at h
    simp at h
  · rw [if_neg h1] at h
    by_cases h2 : (w ++ ".json") ∈ fs.writeErr
    · rw [if_pos h2] at h
      simp at h
    · rw [if_neg h2] at h
      injection h with hres hfs
      subst hfs
      have hnone : fs.files.lookup (w ++ ".json") = none :=
        Option.not_isSome_iff_eq_none.mp h1
      refine ⟨?_, ?_, ?_⟩
      · simp [saveToCache, lookup_append_fresh _ _ _ hnone]
      · exact lookup_append_fresh _ _ _ hnone
      · intro hre
        simp [fetchFromCache, lookup_append_fresh _ _ _ hnone, hre]

/-- C4 witness: writing `"b1"` then `"b2"` under `"W"` into an empty healthy
directory. -/
theorem C4_witness :
    saveToCache "W" "b2" ⟨[("W.json", "b1")], [], []⟩ =
      (.error .alreadyExists, ⟨[("W.json", "b1")], [], []⟩) ∧
    (FS.mk [("W.json", "b1")] [] []).files.lookup ("W" ++ ".json") = some "b1" ∧
    (("W" ++ ".json") ∉ (FS.mk [("W.json", "b1")] [] []).readErr →
      fetchFromCache "W" ⟨[("W.json", "b1")], [], []⟩ = .ok "b1") :=
  C4_write_once fs0 ⟨[("W.json", "b1")], [], []⟩ "W" "b1" "b2" rfl

/-- C5: whenever the acquired payload (cache bytes, network body, or the nil
bytes of a failed fetch) does not unmarshal, `searchWord` returns the parse
error as a value — the embedding is total, so no crash — and the cache
directory is left exactly as it was: no file is written for the word. -/
theorem C5_parse_error_propagates (env : Env) (word m : String)
    (h : goUnmarshal env.unmarshal (acquireRaw word env).1 = .error m) :
    (searchWord word env).result = .error (.parse m) ∧
    (searchWord word env).fs = env.fs := by
  constructor
  · simp [searchWord, h]
  · simp [searchWord, h]

/-- C5 witness: the remote answers a body that fails to parse; the error
surfaces and the directory is unchanged. -/
theorem C5_witness :
    (searchWord "W" envBadBody).result = .error (.parse "invalid character o") ∧
    (searchWord "W" envBadBody).fs = envBadBody.fs :=
  C5_parse_error_propagates envBadBody "W" "invalid character o" rfl

/-- C7: the claim says taking the first element of a successfully parsed
sequence must not panic even when the sequence is empty.  The code indexes
`resp[0]` before any emptiness check, so a remote body `"[]"` — a
well-formed JSON array parsing to zero entries — makes `searchWord` succeed
with `[]` and `handleSearchCommand` panic with an out-of-range access. -/
theorem C7_empty_array_panics :
    (searchWord "Xyzzynotaword" envEmptyArr).result = .ok [] ∧
    (handleSearchCommand "Xyzzynotaword" envEmptyArr).outcome = .panicked :=
  ⟨rfl, rfl⟩

/-- C8: when the acquired bytes unmarshal successfully, the resolver returns
the parsed data even though the subsequent persistence attempt fails
(`alreadyExists` or `ioWrite`): the save error is discarded at wordef.go
line 127 and never alters the resolution result. -/
theorem C8_persistence_failure_swallowed (env : Env) (word s : String)
    (l : List WordInfo) (e : Err)
    (h1 : (acquireRaw word env).1 = some s)
    (h2 : env.unmarshal s = .ok l)
    (_h3 : (saveToCache word s env.fs).1 = .error e) :
    (searchWord word env).result = .ok l := by
  simp [searchWord, h1, goUnmarshal, h2]

/-- C8 witness: the record exists but is unreadable, so the body is
re-fetched; the save is then rejected with `alreadyExists`, yet the
resolution succeeds. -/
theorem C8_witness :
    (searchWord "W" envAlready).result = .ok [demoInfo] :=
  C8_persistence_failure_swallowed envAlready "W" "B" [demoInfo]
    .alreadyExists rfl rfl rfl

/-- C10: for a word whose record is present, `searchWord` leaves the cache
directory exactly unchanged on every path: the re-save of a cache hit is
rejected by the `os.Stat` guard before any write, and error paths never
write.  Directory mutation happens only inside `saveToCache` (and the
`MkdirAll` of initialization, outside this state). -/
theorem C10_resolve_cached_frame (env : Env) (word b : String)
    (h : env.fs.files.lookup (word ++ ".json") = some b) :
    (searchWord word env).fs = env.fs := by
  simp only [searchWord]
  split
  · rfl
  · simp [saveToCache, h]

/-- C10 witness: resolving the already-cached `"Hello"` leaves the
directory untouched. -/
theorem C10_witness :
    (searchWord "Hello" envCached).fs = envCached.fs :=
  C10_resolve_cached_frame envCached "Hello" "X" rfl

/-- C9 counterexample: `"hello"` and `"Hello"` normalize to the same cache
key, but with the (swallowed) cache-write failure of the first resolution
the word resolved under one is NOT a cache hit under the other: the second
query fetches from the network again. -/
theorem C9_counterexample :
    capitalizeString "hello" = capitalizeString "Hello" ∧
    (mainSearchWord "hello" envCaseWriteFail).result = .ok [demoInfo] ∧
    (mainSearchWord "Hello"
      { envCaseWriteFail with
        fs := (mainSearchWord "hello" envCaseWriteFail).fs }).fetches = 1 :=
  ⟨rfl, rfl, rfl⟩

/-- C9 (amended): `capitalizeString` is the single normalization, applied
once at the `main` boundary (the empty string maps to itself); two queries
whose first letters agree up to case map to the same cache key, and —
PROVIDED the first resolution's cache write succeeds and the record is
readable — a word resolved under one query is a fetch-free cache hit under
the other, with the same parsed result. -/
theorem C9_normalization_roundtrip (env : Env) (c1 c2 : Char) (t : List Char)
    (l : List WordInfo)
    (hc : c1.toUpper = c2.toUpper)
    (hmiss : env.fs.files.lookup
      (capitalizeString (String.mk (c1 :: t)) ++ ".json") = none)
    (hok : (mainSearchWord (String.mk (c1 :: t)) env).result = .ok l)
    (hw : (capitalizeString (String.mk (c1 :: t)) ++ ".json") ∉ env.fs.writeErr)
    (hr : (capitalizeString (String.mk (c1 :: t)) ++ ".json") ∉ env.fs.readErr) :
    capitalizeString "" = "" ∧
    capitalizeString (String.mk (c1 :: t)) = capitalizeString (String.mk (c2 :: t)) ∧
    (mainSearchWord (String.mk (c2 :: t))
      { env with fs := (mainSearchWord (String.mk (c1 :: t)) env).fs }).fetches = 0 ∧
    (mainSearchWord (String.mk (c2 :: t))
      { env with fs := (mainSearchWord (String.mk (c1 :: t)) env).fs }).result =
      .ok l := by
  have hkey : capitalizeString (String.mk (c1 :: t)) =
      capitalizeString (String.mk (c2 :: t))
  · show String.mk (c1.toUpper :: t) = String.mk (c2.toUpper :: t)
    rw [hc]
  have hrt := searchWord_miss_roundtrip env
    (capitalizeString (String.mk (c1 :: t))) l hmiss hok hw hr
  refine ⟨rfl, hkey, ?_, ?_⟩
  · simp only [mainSearchWord, ← hkey]
    exact hrt.2.1
  · simp only [mainSearchWord, ← hkey]
    exact hrt.2.2

/-- C9 witness: `"hello"` then `"Hello"` against a healthy empty cache:
same key `"Hello"`, second call is a fetch-free hit with the same result. -/
theorem C9_witness :
    capitalizeString "" = "" ∧
    capitalizeString (String.mk ('h' :: "ello".data)) =
      capitalizeString (String.mk ('H' :: "ello".data)) ∧
    (mainSearchWord (String.mk ('H' :: "ello".data))
      { envCase with
        fs := (mainSearchWord (String.mk ('h' :: "ello".data)) envCase).fs }).fetches = 0 ∧
    (mainSearchWord (String.mk ('H' :: "ello".data))
      { envCase with
        fs := (mainSearchWord (String.mk ('h' :: "ello".data)) envCase).fs }).result =
      .ok [demoInfo] :=
  C9_normalization_roundtrip envCase 'h' 'H' "ello".data [demoInfo]
    (by decide) rfl rfl (by decide) (by decide)

/-! Lemmas for the cache-listing claim. -/

/-- Inserting into a sorted tail permutes as a `cons`. -/
theorem insortStr_perm (x : String) (l : List String) :
    (insortStr x l).Perm (x :: l) := by
  induction l with
  | nil => exact List.Perm.refl _
  | cons y ys ih =>
      simp only [insortStr]
      split
      · exact List.Perm.refl _
      · exact (ih.cons y).trans (List.Perm.swap x y ys)

/-- The lexical sort of the directory listing is a permutation of it. -/
theorem sortStr_perm (l : List String) : (sortStr l).Perm l := by
  induction l with
  | nil => exact List.Perm.refl _
  | cons x xs ih => exact (insortStr_perm x (sortStr xs)).trans (ih.cons x)

/-- A name of the shape `w ++ ".json"` always has extension `".json"`. -/
theorem goExt_append (w : List Char) : goExt (w ++ jsonPat) = jsonPat := by
  induction w with
  | nil => decide
  | cons c w ih =>
      simp only [List.cons_append, goExt]
      rw [show goExt (w.append jsonPat) = jsonPat from ih]
      rfl

/-- Rebuilding a string from its character list is the identity. -/
theorem string_mk_data (s : String) : String.mk s.data = s := by
  cases s
  rfl

/-- If the suffixed name `c :: (w ++ ".json")` starts with `".json"`, then so
does `c :: w` already: the suffix `".json"` has no non-trivial border, so an
occurrence cannot straddle the boundary between `w` and the suffix. -/
theorem jsonPat_prefix_of_cons (c : Char) (w : List Char)
    (hp : jsonPat.isPrefixOf (c :: (w ++ jsonPat)) = true) :
    jsonPat.isPrefixOf (c :: w) = true := by
  match w with
  | [] =>
      exfalso
      simp only [jsonPat, List.nil_append, List.isPrefixOf, Bool.and_eq_true,
        beq_iff_eq] at hp
      exact absurd hp.2.1 (by decide)
  | [a] =>
      exfalso
      simp only [jsonPat, List.cons_append, List.nil_append, List.isPrefixOf,
        Bool.and_eq_true, beq_iff_eq] at hp
      exact absurd hp.2.2.1 (by decide)
  | [a, b] =>
      exfalso
      simp only [jsonPat, List.cons_append, List.nil_append, List.isPrefixOf,
        Bool.and_eq_true, beq_iff_eq] at hp
      exact absurd hp.2.2.2.1 (by decide)
  | [a, b, d] =>
      exfalso
      simp only [jsonPat, List.cons_append, List.nil_append, List.isPrefixOf,
        Bool.and_eq_true, beq_iff_eq] at hp
      exact absurd hp.2.2.2.2 (by decide)
  | a :: b :: d :: e :: t =>
      simp only [jsonPat, List.cons_append, List.isPrefixOf, Bool.and_eq_true,
        beq_iff_eq, and_true] at hp ⊢
      exact hp

/-- Unfolds one step of the substring test. -/
theorem hasSubstr_cons_false (pat : List Char) (c : Char) (w : List Char)
    (h : hasSubstr pat (c :: w) = false) :
    pat.isPrefixOf (c :: w) = false ∧ hasSubstr pat w = false := by
  simp only [hasSubstr, Bool.or_eq_false_iff] at h
  exact h

/-- For a word that does not contain `".json"`, removing the first
occurrence of `".json"` from `w ++ ".json"` removes exactly the appended
storage suffix. -/
theorem removeFirst_append (w : List Char) (h : hasSubstr jsonPat w = false) :
    removeFirst jsonPat (w ++ jsonPat) = w := by
  induction w with
  | nil => decide
  | cons c w ih =>
      obtain ⟨h1, h2⟩ := hasSubstr_cons_false jsonPat c w h
      have hnp : jsonPat.isPrefixOf (c :: (w ++ jsonPat)) = false
      · cases hb : jsonPat.isPrefixOf (c :: (w ++ jsonPat)) with
        | false => rfl
        | true => exact absurd (jsonPat_prefix_of_cons c w hb) (by simp [h1])
      rw [List.cons_append]
      simp only [removeFirst]
      rw [hnp]
      simp [ih h2]

/-- The walk-callback key of a stored record `w ++ ".json"` is exactly `w`,
for words not containing `".json"`. -/
theorem cacheFileKey_json (w : String) (h : hasSubstr jsonPat w.data = false) :
    cacheFileKey (w ++ ".json") = some w := by
  have hd : (w ++ ".json").data = w.data ++ jsonPat := by
    rw [String.data_append]
    rfl
  simp only [cacheFileKey, hd, goExt_append, if_true, removeFirst_append w.data h,
    string_mk_data]

/-- Keys recovered from the record names of `ws` are exactly `ws`. -/
theorem filterMap_key_map (ws : List String)
    (hclean : ∀ w ∈ ws, hasSubstr jsonPat w.data = false) :
    (ws.map (fun w => w ++ ".json")).filterMap cacheFileKey = ws := by
  induction ws with
  | nil => rfl
  | cons w ws ih =>
      rw [List.map_cons,
        List.filterMap_cons_some (cacheFileKey_json w (hclean w (List.mem_cons_self w ws))),
        ih (fun x hx => hclean x (List.mem_cons_of_mem w hx))]

/-- C6 counterexample: the word `"A.jsonB"` (containing `".json"` before the
suffix) resolves successfully, but `getCachedWords` recovers the key
`"AB.json"` — `strings.Replace(name, ".json", "", 1)` removed the FIRST
occurrence, not the trailing storage suffix — so the listing is not the set
of resolved words. -/
theorem C6_counterexample :
    (searchWord "A.jsonB" envDotJson).result = .ok [demoInfo] ∧
    getCachedWords ((searchWord "A.jsonB" envDotJson).fs) = ["AB.json"] ∧
    "A.jsonB" ∉ getCachedWords ((searchWord "A.jsonB" envDotJson).fs) :=
  ⟨rfl, rfl, by decide⟩

/-- C6 (amended): when the cache directory holds exactly one record
`w ++ ".json"` per resolved word `w` and no resolved word contains
`".json"` as a substring, `getCachedWords` returns exactly, as a set, the
resolved words: a permutation of them, without duplicates (the directory
entry of the cache folder itself is skipped and each file name is stripped
of its suffix). -/
theorem C6_list_after_resolutions (fs : FS) (ws : List String)
    (body : String → String)
    (hfiles : fs.files = ws.map (fun w => (w ++ ".json", body w)))
    (hnodup : ws.Nodup)
    (hclean : ∀ w ∈ ws, hasSubstr jsonPat w.data = false) :
    (getCachedWords fs).Perm ws ∧ (getCachedWords fs).Nodup := by
  have hnames : fs.files.map Prod.fst = ws.map (fun w => w ++ ".json")
  · rw [hfiles, List.map_map]
    rfl
  have hperm : (sortStr (fs.files.map Prod.fst)).Perm (ws.map (fun w => w ++ ".json"))
  · rw [hnames]
    exact sortStr_perm _
  have h0 : cacheFileKey "wordef" = none := by decide
  have hmain : (getCachedWords fs).Perm ws
  · simp only [getCachedWords]
    rw [List.filterMap_cons_none h0]
    have hstep := hperm.filterMap cacheFileKey
    rw [filterMap_key_map ws hclean] at hstep
    exact hstep
  exact ⟨hmain, hmain.nodup_iff.mpr hnodup⟩

/-- C6 witness: a directory holding exactly the records of `"Apple"` and
`"Pear"` lists exactly those two words. -/
theorem C6_witness :
    (getCachedWords fsTwo).Perm ["Apple", "Pear"] ∧ (getCachedWords fsTwo).Nodup :=
  C6_list_after_resolutions fsTwo ["Apple", "Pear"] (fun _ => "B")
    rfl (by decide) (by decide)

end Wordef
